import Mathlib

/-!
Shallow embedding of the donation-ledger core of ProfitFlow-V4.

The embedding mirrors the storage layer (`DatabaseStorage` in the server
source) and the relevant route handlers.  The persistent store is a record
of seven entity tables, each modelled as the list of its rows in insertion
order.  SQL `ORDER BY` clauses are modelled with `List.insertionSort` on
the ordering key; SQL `SUM`/`COUNT` aggregates are modelled with
`List.sum`/`List.length` over the corresponding row lists.

Monetary amounts are stored in a `NUMERIC(10,2)` column and summed exactly
by the database, so they are modelled as exact scaled integers (minor
currency units, `Int`).  Timestamps are modelled as integers (epoch
milliseconds); only their ordering is ever used.  Row ids are strings
(the database generates UUID strings).

PostgreSQL enforces the `REFERENCES` (foreign key) constraints declared in
the schema, so a bulk `INSERT` of rows is modelled as: if every row's
foreign keys resolve in the current state the rows are appended, otherwise
the statement fails and changes nothing.  Primary-key and unique-column
constraints are never exercised by the properties below and are not
modelled.  A thrown database error is modelled by the `DbResult.error`
constructor carrying the message.
-/

namespace ProfitFlow

/-- Result of an operation that can throw, mirroring a rejected promise. -/
inductive DbResult (α : Type) where
  | ok (value : α)
  | error (msg : String)
deriving DecidableEq

inductive UserRole where
  | admin
  | manager
  | cash_collector
deriving DecidableEq

inductive TaskStatus where
  | active
  | inactive
  | completed
deriving DecidableEq

inductive ReceiptBookStatus where
  | active
  | completed
  | assigned
deriving DecidableEq

inductive ExpenseTypeStatus where
  | active
  | inactive
deriving DecidableEq

/-- Row of the `users` table. -/
structure User where
  id : String
  username : String
  password : String
  fullName : String
  role : UserRole
  isActive : Bool
  createdAt : Int
  updatedAt : Int
deriving DecidableEq

/-- Row of the `tasks` table. -/
structure Task where
  id : String
  name : String
  description : Option String
  status : TaskStatus
  createdBy : String
  createdAt : Int
  updatedAt : Int
deriving DecidableEq

/-- Row of the `receipt_books` table. -/
structure ReceiptBook where
  id : String
  bookNumber : String
  taskId : String
  assignedTo : Option String
  startingReceiptNumber : Int
  endingReceiptNumber : Int
  totalReceipts : Int
  status : ReceiptBookStatus
  createdBy : String
  createdAt : Int
  updatedAt : Int
deriving DecidableEq

/-- Row of the `receipts` table; `amount` is in minor currency units. -/
structure Receipt where
  id : String
  receiptNumber : Int
  receiptBookId : String
  taskId : String
  giverName : String
  address : String
  phoneNumber : Option String
  amount : Int
  enteredBy : String
  createdAt : Int
  updatedAt : Int
deriving DecidableEq

/-- Row of the `expense_types` table. -/
structure ExpenseType where
  id : String
  name : String
  description : Option String
  status : ExpenseTypeStatus
  createdBy : String
  createdAt : Int
  updatedAt : Int
deriving DecidableEq

/-- Row of the `expenses` table; `amount` is in minor currency units. -/
structure Expense where
  id : String
  expenseTypeId : String
  amount : Int
  description : Option String
  expenseDate : Int
  createdBy : String
  createdAt : Int
  updatedAt : Int
deriving DecidableEq

/-- Row of the `published_reports` table; `reportData` is a JSON string. -/
structure PublishedReport where
  id : String
  reportData : String
  publishedBy : String
  publishedAt : Int
deriving DecidableEq

/-- The full persistent store: one list of rows per table. -/
structure DatabaseState where
  users : List User
  tasks : List Task
  receiptBooks : List ReceiptBook
  receipts : List Receipt
  expenses : List Expense
  expenseTypes : List ExpenseType
  publishedReports : List PublishedReport
deriving DecidableEq

/-- `getAllUsers`: `select … from users order by users.createdAt`. -/
def getAllUsers (s : DatabaseState) : List User :=
  List.insertionSort (fun a b => a.createdAt ≤ b.createdAt) s.users

/-- `getTasks`: `select … from tasks order by desc(tasks.createdAt)`. -/
def getTasks (s : DatabaseState) : List Task :=
  List.insertionSort (fun a b => b.createdAt ≤ a.createdAt) s.tasks

/-- `getReceiptBooks`: `select … from receiptBooks order by desc(createdAt)`. -/
def getReceiptBooks (s : DatabaseState) : List ReceiptBook :=
  List.insertionSort (fun a b => b.createdAt ≤ a.createdAt) s.receiptBooks

/-- `getReceiptBook`: first row of `receiptBooks` whose id matches. -/
def getReceiptBook (s : DatabaseState) (id : String) : Option ReceiptBook :=
  s.receiptBooks.find? (fun b => b.id == id)

/-- `getReceipts`: `select … from receipts order by desc(createdAt)`. -/
def getReceipts (s : DatabaseState) : List Receipt :=
  List.insertionSort (fun a b => b.createdAt ≤ a.createdAt) s.receipts

/-- `getReceiptsByBook`: rows of `receipts` with the given `receiptBookId`,
ordered by `receiptNumber`. -/
def getReceiptsByBook (s : DatabaseState) (receiptBookId : String) : List Receipt :=
  List.insertionSort (fun a b => a.receiptNumber ≤ b.receiptNumber)
    (s.receipts.filter (fun r => r.receiptBookId == receiptBookId))

/-- `getExpenses`: `select … from expenses order by desc(expenseDate)`. -/
def getExpenses (s : DatabaseState) : List Expense :=
  List.insertionSort (fun a b => b.expenseDate ≤ a.expenseDate) s.expenses

/-- `getExpenseTypes`: `select … from expenseTypes order by name`. -/
def getExpenseTypes (s : DatabaseState) : List ExpenseType :=
  List.insertionSort (fun a b => a.name ≤ b.name) s.expenseTypes

/-- `getPublishedReports`: `select … from publishedReports order by
desc(publishedAt)`. -/
def getPublishedReports (s : DatabaseState) : List PublishedReport :=
  List.insertionSort (fun a b => b.publishedAt ≤ a.publishedAt) s.publishedReports

/-- `getLatestPublishedReport`: first row of `getPublishedReports` (`limit 1`),
or `undefined` (`none`) when the table is empty. -/
def getLatestPublishedReport (s : DatabaseState) : Option PublishedReport :=
  (getPublishedReports s).head?

/-- The used receipt numbers of a book:
`existingReceipts.map(r => r.receiptNumber)` over `getReceiptsByBook`. -/
def usedNumbers (s : DatabaseState) (receiptBookId : String) : List Int :=
  (getReceiptsByBook s receiptBookId).map (fun r => r.receiptNumber)

/-- The scan loop of `getNextReceiptNumber`:
`for (num = start; num <= ending; num++) if (!usedNumbers.includes(num)) return num`.
The fuel is the number of remaining loop iterations. -/
def findFreeNumber (used : List Int) : Int → Nat → Option Int
  | _, 0 => none
  | num, fuel + 1 =>
    if used.contains num then findFreeNumber used (num + 1) fuel else some num

/-- `DatabaseStorage.getNextReceiptNumber`: look the book up, collect the used
numbers of the book, scan the range in ascending order, throw when the book is
missing or the range is exhausted. -/
def getNextReceiptNumber (s : DatabaseState) (receiptBookId : String) : DbResult Int :=
  match getReceiptBook s receiptBookId with
  | none => .error "Receipt book not found"
  | some receiptBook =>
    match findFreeNumber (usedNumbers s receiptBookId)
        receiptBook.startingReceiptNumber
        (receiptBook.endingReceiptNumber + 1 - receiptBook.startingReceiptNumber).toNat with
    | some num => .ok num
    | none => .error "All receipt numbers in this book have been used"

/-- `getTotalIncome`: `select sum(receipts.amount) from receipts`. -/
def getTotalIncome (s : DatabaseState) : Int :=
  (s.receipts.map (fun r => r.amount)).sum

/-- `getTotalExpenses`: `select sum(expenses.amount) from expenses`. -/
def getTotalExpenses (s : DatabaseState) : Int :=
  (s.expenses.map (fun e => e.amount)).sum

/-- `getCurrentBalance`: `totalIncome - totalExpenses`. -/
def getCurrentBalance (s : DatabaseState) : Int :=
  getTotalIncome s - getTotalExpenses s

/-- One output row of `getIncomeByTask`. -/
structure IncomeByTaskRow where
  taskId : String
  taskName : String
  total : Int
  receiptBookCount : Nat
deriving DecidableEq

/-- The row set produced for one task by
`from(tasks).leftJoin(receipts, eq(tasks.id, receipts.taskId))
            .leftJoin(receiptBooks, eq(tasks.id, receiptBooks.taskId))`:
the task's receipt rows (or a single null row when it has none), each
paired with every receipt book of the task (or with a null book when it
has none). -/
def incomeByTaskJoinRows (s : DatabaseState) (t : Task) :
    List (Option Receipt × Option ReceiptBook) :=
  let receiptRows := s.receipts.filter (fun r => r.taskId == t.id)
  let bookRows := s.receiptBooks.filter (fun b => b.taskId == t.id)
  let leftRows : List (Option Receipt) :=
    if receiptRows.isEmpty then [none] else receiptRows.map some
  leftRows.flatMap (fun lr =>
    if bookRows.isEmpty then [(lr, none)] else bookRows.map (fun b => (lr, some b)))

/-- `getIncomeByTask`: group the double left join by task;
`sum(receipts.amount)` sums the (non-null) receipt amount of every joined
row, `count(receiptBooks.id)` counts the joined rows with a non-null book;
a null sum becomes `0` via `Number(r.total || 0)`. -/
def getIncomeByTask (s : DatabaseState) : List IncomeByTaskRow :=
  s.tasks.map (fun t =>
    let rows := incomeByTaskJoinRows s t
    { taskId := t.id
      taskName := t.name
      total := (rows.map (fun p => match p.1 with
        | some r => r.amount
        | none => 0)).sum
      receiptBookCount := (rows.filter (fun p => p.2.isSome)).length })

/-- Foreign keys of a `receipts` row: `receipt_book_id`, `task_id`,
`entered_by`. -/
def receiptRowOk (s : DatabaseState) (r : Receipt) : Bool :=
  s.receiptBooks.any (fun b => b.id == r.receiptBookId) &&
  s.tasks.any (fun t => t.id == r.taskId) &&
  s.users.any (fun u => u.id == r.enteredBy)

/-- Foreign key of a `tasks` row: `created_by`. -/
def taskRowOk (s : DatabaseState) (t : Task) : Bool :=
  s.users.any (fun u => u.id == t.createdBy)

/-- Foreign keys of a `receipt_books` row: `task_id`, `created_by` and the
optional `assigned_to`. -/
def receiptBookRowOk (s : DatabaseState) (b : ReceiptBook) : Bool :=
  s.tasks.any (fun t => t.id == b.taskId) &&
  s.users.any (fun u => u.id == b.createdBy) &&
  (match b.assignedTo with
   | none => true
   | some uid => s.users.any (fun u => u.id == uid))

/-- Foreign key of an `expense_types` row: `created_by`. -/
def expenseTypeRowOk (s : DatabaseState) (e : ExpenseType) : Bool :=
  s.users.any (fun u => u.id == e.createdBy)

/-- Foreign keys of an `expenses` row: `expense_type_id`, `created_by`. -/
def expenseRowOk (s : DatabaseState) (e : Expense) : Bool :=
  s.expenseTypes.any (fun t => t.id == e.expenseTypeId) &&
  s.users.any (fun u => u.id == e.createdBy)

/-- Foreign key of a `published_reports` row: `published_by`. -/
def publishedReportRowOk (s : DatabaseState) (p : PublishedReport) : Bool :=
  s.users.any (fun u => u.id == p.publishedBy)

/-- `createReceipt`: `db.insert(receipts).values(insertReceipt)`; PostgreSQL
accepts the row whenever its foreign keys resolve — the storage layer checks
neither the book's number range nor duplicate numbers. -/
def createReceipt (s : DatabaseState) (r : Receipt) : DbResult DatabaseState :=
  if receiptRowOk s r then .ok { s with receipts := s.receipts ++ [r] }
  else .error "insert into receipts violates a foreign key constraint"

/-- The `POST /api/receipts` handler: after the shape-only zod parse, a cash
collector may only write into a book assigned to them; then the receipt is
persisted unconditionally. -/
def postApiReceipts (s : DatabaseState) (user : User) (receiptData : Receipt) :
    DbResult DatabaseState :=
  if user.role == .cash_collector then
    match getReceiptBook s receiptData.receiptBookId with
    | none => .error "You can only add receipts to assigned receipt books"
    | some receiptBook =>
      if receiptBook.assignedTo == some user.id then createReceipt s receiptData
      else .error "You can only add receipts to assigned receipt books"
  else createReceipt s receiptData

/-- `createPublishedReport`: `db.insert(publishedReports).values(insertReport)`. -/
def createPublishedReport (s : DatabaseState) (report : PublishedReport) :
    DbResult DatabaseState :=
  if publishedReportRowOk s report then
    .ok { s with publishedReports := s.publishedReports ++ [report] }
  else .error "insert into published_reports violates a foreign key constraint"

/-- The `GET /api/reports/published` handler: `404` (`none`) when no report
exists, otherwise the stored `reportData` of the latest report together with
its `publishedAt` (the JSON parse re-encodes the same stored string). -/
def getPublishedReportRoute (s : DatabaseState) : Option (String × Int) :=
  match getLatestPublishedReport s with
  | none => none
  | some latestReport => some (latestReport.reportData, latestReport.publishedAt)

/-- The optional collections of an uploaded backup document. -/
structure BackupData where
  users : Option (List User)
  tasks : Option (List Task)
  receiptBooks : Option (List ReceiptBook)
  receipts : Option (List Receipt)
  expenses : Option (List Expense)
  expenseTypes : Option (List ExpenseType)
  publishedReports : Option (List PublishedReport)
deriving DecidableEq

/-- A backup document with every collection absent: the empty object `{}`. -/
def emptyBackup : BackupData := ⟨none, none, none, none, none, none, none⟩

/-- `getAllDataForBackup`: export every collection through the ordinary
list queries. -/
def getAllDataForBackup (s : DatabaseState) : BackupData :=
  { users := some (getAllUsers s)
    tasks := some (getTasks s)
    receiptBooks := some (getReceiptBooks s)
    receipts := some (getReceipts s)
    expenses := some (getExpenses s)
    expenseTypes := some (getExpenseTypes s)
    publishedReports := some (getPublishedReports s) }

/-- Names of the seven tables, used to describe the restore sequence. -/
inductive TableName where
  | users
  | tasks
  | expenseTypes
  | receiptBooks
  | receipts
  | expenses
  | publishedReports
deriving DecidableEq, Fintype

/-- The fixed order in which `restoreFromBackup` attempts its inserts. -/
def restoreInsertOrder : List TableName :=
  [.users, .tasks, .expenseTypes, .receiptBooks, .receipts, .expenses, .publishedReports]

/-- The tables referenced by each table's foreign keys, per the schema. -/
def tableReferences : TableName → List TableName
  | .users => []
  | .tasks => [.users]
  | .expenseTypes => [.users]
  | .receiptBooks => [.tasks, .users]
  | .receipts => [.receiptBooks, .tasks, .users]
  | .expenses => [.expenseTypes, .users]
  | .publishedReports => [.users]

/-- The guard `if (backupData.X?.length)`: true exactly when the collection
is present and non-empty. -/
def backupRowsNonEmpty (b : BackupData) : TableName → Bool
  | .users => !(b.users.getD []).isEmpty
  | .tasks => !(b.tasks.getD []).isEmpty
  | .expenseTypes => !(b.expenseTypes.getD []).isEmpty
  | .receiptBooks => !(b.receiptBooks.getD []).isEmpty
  | .receipts => !(b.receipts.getD []).isEmpty
  | .expenses => !(b.expenses.getD []).isEmpty
  | .publishedReports => !(b.publishedReports.getD []).isEmpty

/-- One `db.insert(table).values(rows)` statement during restore: the
statement appends the backup rows of the table when every row's foreign keys
resolve in the current state, and fails as a whole otherwise. -/
def insertTableRows (t : TableName) (s : DatabaseState) (b : BackupData) :
    Option DatabaseState :=
  match t with
  | .users => some { s with users := s.users ++ b.users.getD [] }
  | .tasks =>
    if (b.tasks.getD []).all (taskRowOk s) then
      some { s with tasks := s.tasks ++ b.tasks.getD [] }
    else none
  | .expenseTypes =>
    if (b.expenseTypes.getD []).all (expenseTypeRowOk s) then
      some { s with expenseTypes := s.expenseTypes ++ b.expenseTypes.getD [] }
    else none
  | .receiptBooks =>
    if (b.receiptBooks.getD []).all (receiptBookRowOk s) then
      some { s with receiptBooks := s.receiptBooks ++ b.receiptBooks.getD [] }
    else none
  | .receipts =>
    if (b.receipts.getD []).all (receiptRowOk s) then
      some { s with receipts := s.receipts ++ b.receipts.getD [] }
    else none
  | .expenses =>
    if (b.expenses.getD []).all (expenseRowOk s) then
      some { s with expenses := s.expenses ++ b.expenses.getD [] }
    else none
  | .publishedReports =>
    if (b.publishedReports.getD []).all (publishedReportRowOk s) then
      some { s with publishedReports := s.publishedReports ++ b.publishedReports.getD [] }
    else none

/-- The insert phase of `restoreFromBackup`: walk the tables in the fixed
order, skip a table whose collection is absent or empty, stop at the first
failing insert (the thrown error aborts the remaining awaits).  Returns the
overall result, the state reached, and the trace of inserts performed. -/
def runRestoreInserts :
    List TableName → DatabaseState → BackupData →
    DbResult Unit × DatabaseState × List TableName
  | [], s, _ => (.ok (), s, [])
  | t :: ts, s, b =>
    if backupRowsNonEmpty b t then
      match insertTableRows t s b with
      | some s2 =>
        let rest := runRestoreInserts ts s2 b
        (rest.1, rest.2.1, t :: rest.2.2)
      | none => (.error "restore insert violates a foreign key constraint", s, [])
    else runRestoreInserts ts s b

/-- The delete phase of `restoreFromBackup`: the three `Promise.all` groups
(`receipts`/`expenses`/`publishedReports`, then `receiptBooks`/`expenseTypes`,
then `tasks`/`users`) jointly clear every table; the deletes are
unconditional, so their sequential composition is the empty store. -/
def clearAllTables (_s : DatabaseState) : DatabaseState :=
  ⟨[], [], [], [], [], [], []⟩

/-- The store with every table empty. -/
def emptyState : DatabaseState := ⟨[], [], [], [], [], [], []⟩

/-- `DatabaseStorage.restoreFromBackup`: clear every table, then insert the
incoming collections in the fixed order; no validation happens before the
deletes, and the sequence is not wrapped in a transaction, so a failing
insert leaves the partially rebuilt state behind. -/
def restoreFromBackup (s : DatabaseState) (b : BackupData) :
    DbResult Unit × DatabaseState :=
  let run := runRestoreInserts restoreInsertOrder (clearAllTables s) b
  (run.1, run.2.1)

/-- The tables inserted (in order) by a run of `restoreFromBackup`. -/
def restoreInsertTrace (s : DatabaseState) (b : BackupData) : List TableName :=
  (runRestoreInserts restoreInsertOrder (clearAllTables s) b).2.2

/-- Emptiness of one table of the store, by table name. -/
def tableIsEmpty (s : DatabaseState) : TableName → Bool
  | .users => s.users.isEmpty
  | .tasks => s.tasks.isEmpty
  | .expenseTypes => s.expenseTypes.isEmpty
  | .receiptBooks => s.receiptBooks.isEmpty
  | .receipts => s.receipts.isEmpty
  | .expenses => s.expenses.isEmpty
  | .publishedReports => s.publishedReports.isEmpty

/-- Referential integrity of a store: every foreign key of every row
resolves.  PostgreSQL guarantees this for every reachable database state. -/
def referentialIntegrity (s : DatabaseState) : Bool :=
  s.tasks.all (taskRowOk s) &&
  s.receiptBooks.all (receiptBookRowOk s) &&
  s.receipts.all (receiptRowOk s) &&
  s.expenseTypes.all (expenseTypeRowOk s) &&
  s.expenses.all (expenseRowOk s) &&
  s.publishedReports.all (publishedReportRowOk s)

/-! Concrete fixtures used by witnesses and counterexamples. -/

def sampleUser : User := ⟨"u1", "admin", "pw", "Admin", .admin, true, 0, 0⟩

def sampleTask : Task := ⟨"t1", "Task One", none, .active, "u1", 1, 1⟩

def book1 : ReceiptBook := ⟨"b1", "B-1", "t1", none, 1, 3, 3, .active, "u1", 2, 2⟩

def book2 : ReceiptBook := ⟨"b2", "B-2", "t1", none, 4, 6, 3, .active, "u1", 3, 3⟩

def receipt1 : Receipt := ⟨"r1", 1, "b1", "t1", "Giver A", "Addr", none, 100, "u1", 4, 4⟩

def receipt2 : Receipt := ⟨"r2", 2, "b1", "t1", "Giver B", "Addr", none, 75, "u1", 5, 5⟩

def receipt3 : Receipt := ⟨"r3", 3, "b1", "t1", "Giver C", "Addr", none, 50, "u1", 6, 6⟩

def expenseType1 : ExpenseType := ⟨"et1", "Utilities", none, .active, "u1", 7, 7⟩

def expense150 : Expense := ⟨"e1", "et1", 150, none, 8, "u1", 8, 8⟩

/-- Book `b1` spans `[1, 3]`; the numbers 1 and 3 are used. -/
def sGap : DatabaseState :=
  ⟨[sampleUser], [sampleTask], [book1], [receipt1, receipt3], [], [], []⟩

/-- Book `b1` spans `[1, 3]`; all three numbers are used. -/
def sFull : DatabaseState :=
  ⟨[sampleUser], [sampleTask], [book1], [receipt1, receipt2, receipt3], [], [], []⟩

/-- A receipt payload whose explicit number 99 lies outside book `b1`'s
range `[1, 3]`. -/
def receiptOutOfRange : Receipt :=
  ⟨"r99", 99, "b1", "t1", "Giver X", "Addr", none, 10, "u1", 9, 9⟩

/-- A receipt payload whose explicit number 1 is already held by `receipt1`
in book `b1`. -/
def receiptDuplicate : Receipt :=
  ⟨"rd", 1, "b1", "t1", "Giver Y", "Addr", none, 10, "u1", 9, 9⟩

/-- A state whose expenses (150) exceed its income (100). -/
def sNeg : DatabaseState :=
  ⟨[sampleUser], [sampleTask], [book1], [receipt1], [expense150], [expenseType1], []⟩

/-- One task with two receipt books and two receipts (amounts 100 and 50),
all attached to task `t1`. -/
def sJoin : DatabaseState :=
  ⟨[sampleUser], [sampleTask], [book1, book2], [receipt1, receipt3], [], [], []⟩

/-- A receipt whose `receiptBookId` does not resolve anywhere. -/
def ghostReceipt : Receipt :=
  ⟨"rg", 1, "missing-book", "t1", "Giver Z", "Addr", none, 10, "u1", 9, 9⟩

/-- A backup whose receipts reference a book absent from the snapshot. -/
def bBad : BackupData :=
  ⟨some [sampleUser], none, none, some [ghostReceipt], none, none, none⟩

/-- A backup carrying only users and tasks. -/
def bUsersTasks : BackupData :=
  ⟨some [sampleUser], some [sampleTask], none, none, none, none, none⟩

def report1 : PublishedReport := ⟨"p1", "frozen-report-1", "u1", 10⟩

def report2 : PublishedReport := ⟨"p2", "frozen-report-2", "u1", 20⟩

def sRep1 : DatabaseState := ⟨[sampleUser], [], [], [], [], [], [report1]⟩

def sRep2 : DatabaseState := ⟨[sampleUser], [], [], [], [], [], [report1, report2]⟩

/-- Result and state of an insert-phase run, forgetting the trace. -/
def runOutcome (x : DbResult Unit × DatabaseState × List TableName) :
    DbResult Unit × DatabaseState := (x.1, x.2.1)

/-- A fully populated, referentially intact state. -/
def sRt : DatabaseState :=
  ⟨[sampleUser], [sampleTask], [book1], [receipt1], [expense150],
   [expenseType1], [report1]⟩

/-! Properties of the allocation scan loop. -/

theorem contains_iff_mem {l : List Int} {a : Int} : l.contains a = true ↔ a ∈ l :=
  @List.elem_iff Int _ _ a l

theorem findFreeNumber_eq_some {used : List Int} :
    ∀ {fuel : Nat} {num m : Int}, findFreeNumber used num fuel = some m →
      num ≤ m ∧ m < num + fuel ∧ m ∉ used ∧ ∀ k, num ≤ k → k < m → k ∈ used := by
  intro fuel
  induction fuel with
  | zero => intro num m h; simp [findFreeNumber] at h
  | succ n ih =>
    intro num m h
    rw [findFreeNumber] at h
    by_cases hc : used.contains num
    · rw [if_pos hc] at h
      obtain ⟨h1, h2, h3, h4⟩ := ih h
      refine ⟨by omega, by push_cast at h2 ⊢; omega, h3, ?_⟩
      intro k hk1 hk2
      rcases eq_or_lt_of_le hk1 with heq | hlt
      · exact heq ▸ contains_iff_mem.mp hc
      · exact h4 k (by omega) hk2
    · rw [if_neg hc] at h
      obtain rfl : num = m := by simpa using h
      refine ⟨le_refl _, by push_cast; omega, ?_, ?_⟩
      · intro hmem
        exact hc (contains_iff_mem.mpr hmem)
      · intro k hk1 hk2
        omega

theorem findFreeNumber_eq_none {used : List Int} :
    ∀ {fuel : Nat} {num : Int}, findFreeNumber used num fuel = none →
      ∀ k, num ≤ k → k < num + fuel → k ∈ used := by
  intro fuel
  induction fuel with
  | zero => intro num _ k hk1 hk2; push_cast at hk2; omega
  | succ n ih =>
    intro num h k hk1 hk2
    rw [findFreeNumber] at h
    by_cases hc : used.contains num
    · rw [if_pos hc] at h
      rcases eq_or_lt_of_le hk1 with heq | hlt
      · exact heq ▸ contains_iff_mem.mp hc
      · exact ih h k (by omega) (by push_cast at hk2 ⊢; omega)
    · rw [if_neg hc] at h
      simp at h

/-- Claim C1: for every receipt book and every set of already-used receipt
numbers, `getNextReceiptNumber` returns the smallest integer in the inclusive
range `[startingReceiptNumber, endingReceiptNumber]` not present in the used
set, and fails with a range-exhausted error when every number in the range is
used. -/
theorem getNextReceiptNumber_spec (s : DatabaseState) (receiptBookId : String)
    (book : ReceiptBook) (hbook : getReceiptBook s receiptBookId = some book) :
    (∀ n, getNextReceiptNumber s receiptBookId = .ok n →
      book.startingReceiptNumber ≤ n ∧ n ≤ book.endingReceiptNumber ∧
      n ∉ usedNumbers s receiptBookId ∧
      ∀ m, book.startingReceiptNumber ≤ m → m < n → m ∈ usedNumbers s receiptBookId) ∧
    (∀ e, getNextReceiptNumber s receiptBookId = .error e →
      ∀ m, book.startingReceiptNumber ≤ m → m ≤ book.endingReceiptNumber →
        m ∈ usedNumbers s receiptBookId) := by
  constructor
  · intro n h
    rw [getNextReceiptNumber, hbook] at h
    dsimp only at h
    cases hf : findFreeNumber (usedNumbers s receiptBookId) book.startingReceiptNumber
        (book.endingReceiptNumber + 1 - book.startingReceiptNumber).toNat with
    | none => rw [hf] at h; exact absurd h (by simp)
    | some num =>
      rw [hf] at h
      obtain rfl : num = n := by simpa using h
      obtain ⟨h1, h2, h3, h4⟩ := findFreeNumber_eq_some hf
      exact ⟨h1, by omega, h3, h4⟩
  · intro e h
    rw [getNextReceiptNumber, hbook] at h
    dsimp only at h
    cases hf : findFreeNumber (usedNumbers s receiptBookId) book.startingReceiptNumber
        (book.endingReceiptNumber + 1 - book.startingReceiptNumber).toNat with
    | some num => rw [hf] at h; exact absurd h (by simp)
    | none =>
      intro m hm1 hm2
      exact findFreeNumber_eq_none hf m hm1 (by omega)

/-- Witness for C1 on the concrete scenario of the claim: with range `[1, 3]`
and used numbers `{1, 3}` the allocator returns `2` (in range, unused, and
every smaller in-range number is used); with used numbers `{1, 2, 3}` it
fails and indeed every number of the range is used. -/
theorem getNextReceiptNumber_spec_witness :
    (getNextReceiptNumber sGap "b1" = .ok 2 ∧
     (2 : Int) ∉ usedNumbers sGap "b1" ∧
     (∀ m : Int, 1 ≤ m → m < 2 → m ∈ usedNumbers sGap "b1")) ∧
    (getNextReceiptNumber sFull "b1" =
       .error "All receipt numbers in this book have been used" ∧
     (∀ m : Int, 1 ≤ m → m ≤ 3 → m ∈ usedNumbers sFull "b1")) := by
  have hgap := (getNextReceiptNumber_spec sGap "b1" book1 (by decide)).1 2 (by decide)
  have hfull := (getNextReceiptNumber_spec sFull "b1" book1 (by decide)).2
    "All receipt numbers in this book have been used" (by decide)
  exact ⟨⟨by decide, hgap.2.2.1, hgap.2.2.2⟩, ⟨by decide, hfull⟩⟩

/-! Claim C2: the receipt-creation route and explicit receipt numbers. -/

/-- Claim C2 is false on the code: the `POST /api/receipts` handler performs
no range or duplicate validation.  On the state `sGap` (book `b1` with range
`[1, 3]` and an existing receipt numbered 1), a request with the explicit
out-of-range number 99 succeeds and creates the receipt, and a request with
the duplicate number 1 also succeeds and creates a second receipt with the
same number in the same book. -/
theorem postApiReceipts_accepts_invalid_numbers :
    (book1.startingReceiptNumber = 1 ∧ book1.endingReceiptNumber = 3 ∧
     getReceiptBook sGap "b1" = some book1) ∧
    (receiptOutOfRange.receiptBookId = "b1" ∧ receiptOutOfRange.receiptNumber = 99 ∧
     postApiReceipts sGap sampleUser receiptOutOfRange =
       .ok { sGap with receipts := sGap.receipts ++ [receiptOutOfRange] }) ∧
    (receiptDuplicate.receiptBookId = "b1" ∧ receiptDuplicate.receiptNumber = 1 ∧
     sGap.receipts.any
       (fun r => r.receiptBookId == "b1" && r.receiptNumber == 1) = true ∧
     postApiReceipts sGap sampleUser receiptDuplicate =
       .ok { sGap with receipts := sGap.receipts ++ [receiptDuplicate] }) := by
  decide

/-! Claim C3: the balance identity. -/

/-- Claim C3: for every state, `getCurrentBalance` equals the sum of all
receipt amounts minus the sum of all expense amounts exactly, with
`getTotalIncome`/`getTotalExpenses` being exactly those sums; a negative
balance (state `sNeg`: income 100, expenses 150) is returned as an ordinary
value. -/
theorem getCurrentBalance_exact :
    (∀ s : DatabaseState,
      getCurrentBalance s =
        (s.receipts.map (fun r => r.amount)).sum -
          (s.expenses.map (fun e => e.amount)).sum ∧
      getTotalIncome s = (s.receipts.map (fun r => r.amount)).sum ∧
      getTotalExpenses s = (s.expenses.map (fun e => e.amount)).sum) ∧
    (getCurrentBalance sNeg = -50 ∧ getCurrentBalance sNeg < 0) :=
  ⟨fun _ => ⟨rfl, rfl, rfl⟩, by decide⟩

/-! Claims C4 and C5: the per-task aggregation. -/

/-- Claim C4 is false on the code: the double left join of `getIncomeByTask`
fans out.  On `sJoin` (one task, two books, receipts of 100 and 50) the
per-task total is reported as 300 although the receipts of the task sum to
150, and the book count is reported as 4 although the task has 2 books. -/
theorem getIncomeByTask_join_fanout :
    getIncomeByTask sJoin = [⟨"t1", "Task One", 300, 4⟩] ∧
    ((sJoin.receipts.filter (fun r => r.taskId == "t1")).map
      (fun r => r.amount)).sum = 150 ∧
    (sJoin.receiptBooks.filter (fun b => b.taskId == "t1")).length = 2 ∧
    (300 : Int) ≠ 150 ∧ (4 : Nat) ≠ 2 := by
  decide

/-- Claim C5 is false on the code: on `sJoin` the task set is non-empty and
every receipt's `taskId` names an existing task, yet the per-task totals of
`getIncomeByTask` sum to 300 while `getTotalIncome` is 150. -/
theorem getIncomeByTask_total_mismatch :
    sJoin.tasks ≠ [] ∧
    sJoin.receipts.all
      (fun r => sJoin.tasks.any (fun t => t.id == r.taskId)) = true ∧
    ((getIncomeByTask sJoin).map (fun row => row.total)).sum = 300 ∧
    getTotalIncome sJoin = 150 ∧
    ((getIncomeByTask sJoin).map (fun row => row.total)).sum ≠
      getTotalIncome sJoin := by
  decide

/-! Claim C6: restore with a dangling foreign key. -/

/-- Claim C6 is false on the code: restoring the snapshot `bBad`, whose one
receipt references a book that is not in the snapshot, does fail — but only
after every table has been cleared and the users already inserted, so the
prior dataset `sGap` (which had a task, a book and two receipts) is
destroyed rather than left unchanged. -/
theorem restoreFromBackup_dangling_fk_destroys_data :
    (bBad.receipts.getD []).all
      (fun r => (bBad.receiptBooks.getD []).any
        (fun bk => bk.id == r.receiptBookId)) = false ∧
    (restoreFromBackup sGap bBad).1 =
      .error "restore insert violates a foreign key constraint" ∧
    (restoreFromBackup sGap bBad).2 ≠ sGap ∧
    (restoreFromBackup sGap bBad).2.tasks = [] ∧ sGap.tasks ≠ [] ∧
    (restoreFromBackup sGap bBad).2.receipts = [] ∧ sGap.receipts ≠ [] ∧
    (restoreFromBackup sGap bBad).2.users = [sampleUser] := by
  decide

/-! Claim C8: the order of the restore inserts. -/

theorem runRestoreInserts_ok_trace (b : BackupData) :
    ∀ (ts : List TableName) (s : DatabaseState),
      (runRestoreInserts ts s b).1 = .ok () →
      (runRestoreInserts ts s b).2.2 = ts.filter (backupRowsNonEmpty b) := by
  intro ts
  induction ts with
  | nil => intro s _; rfl
  | cons t ts ih =>
    intro s h
    rw [runRestoreInserts] at h ⊢
    by_cases hne : backupRowsNonEmpty b t
    · rw [if_pos hne] at h ⊢
      cases hins : insertTableRows t s b with
      | some s2 =>
        rw [hins] at h
        dsimp only at h ⊢
        rw [List.filter_cons_of_pos hne]
        exact congrArg (t :: ·) (ih s2 h)
      | none => rw [hins] at h; dsimp only at h; exact absurd h (by simp)
    · rw [if_neg hne] at h ⊢
      rw [List.filter_cons_of_neg hne]
      exact ih s h

/-- Claim C8: whenever a restore succeeds, the inserts it performed are
exactly the non-empty incoming collections in the fixed order users, tasks,
expense types, receipt books, receipts, expenses, published reports; and in
that order every table comes after all tables it references. -/
theorem restore_insert_order_spec (s : DatabaseState) (b : BackupData)
    (h : (restoreFromBackup s b).1 = .ok ()) :
    restoreInsertTrace s b = restoreInsertOrder.filter (backupRowsNonEmpty b) ∧
    ∀ t t2, t2 ∈ tableReferences t →
      restoreInsertOrder.indexOf t2 < restoreInsertOrder.indexOf t := by
  refine ⟨runRestoreInserts_ok_trace b restoreInsertOrder (clearAllTables s) h, ?_⟩
  decide

/-- Witness for C8: restoring a backup with only users and tasks succeeds and
inserts exactly `users` then `tasks`. -/
theorem restore_insert_order_spec_witness :
    restoreInsertTrace emptyState bUsersTasks =
      [TableName.users, TableName.tasks] := by
  have h := restore_insert_order_spec emptyState bUsersTasks (by decide)
  exact h.1.trans (by decide)

/-! Claim C10: absent or empty collections are cleared and left empty. -/

theorem insertTableRows_preserves {t t2 : TableName} {s s2 : DatabaseState}
    {b : BackupData} (hins : insertTableRows t s b = some s2) (hne : t2 ≠ t) :
    tableIsEmpty s2 t2 = tableIsEmpty s t2 := by
  cases t <;> cases t2 <;>
    first
      | exact absurd rfl hne
      | (simp only [insertTableRows] at hins
         first
           | (cases hins; rfl)
           | (split at hins
              · cases hins; rfl
              · exact absurd hins (by simp)))

theorem runRestoreInserts_keeps_empty (b : BackupData) (t : TableName)
    (hb : backupRowsNonEmpty b t = false) :
    ∀ (ts : List TableName) (s : DatabaseState), tableIsEmpty s t = true →
      tableIsEmpty (runRestoreInserts ts s b).2.1 t = true := by
  intro ts
  induction ts with
  | nil => intro s hs; exact hs
  | cons t2 ts ih =>
    intro s hs
    rw [runRestoreInserts]
    by_cases h2 : backupRowsNonEmpty b t2
    · rw [if_pos h2]
      cases hins : insertTableRows t2 s b with
      | some s2 =>
        dsimp only
        refine ih s2 ?_
        have hne : t ≠ t2 := by
          intro heq
          rw [heq] at hb
          rw [hb] at h2
          exact Bool.false_ne_true h2
        rw [insertTableRows_preserves hins hne]
        exact hs
      | none => exact hs
    · rw [if_neg h2]
      exact ih s hs

/-- Claim C10: `restoreFromBackup` deletes every existing row of every table
regardless of the incoming snapshot; a collection that is absent or empty in
the snapshot ends up empty, and restoring the empty object `{}` succeeds and
leaves every table empty. -/
theorem restore_clears_absent_collections :
    (∀ s : DatabaseState, restoreFromBackup s emptyBackup = (.ok (), emptyState)) ∧
    (∀ (s : DatabaseState) (b : BackupData) (t : TableName),
      backupRowsNonEmpty b t = false →
      tableIsEmpty (restoreFromBackup s b).2 t = true) := by
  constructor
  · intro _; rfl
  · intro s b t hb
    exact runRestoreInserts_keeps_empty b t hb restoreInsertOrder (clearAllTables s)
      (by cases t <;> rfl)

/-- Witness for C10: restoring a backup that carries only users and tasks
over the populated state `sGap` leaves the receipts table (whose collection
is absent from the snapshot) empty, and restoring `{}` over `sGap` empties
everything. -/
theorem restore_clears_absent_collections_witness :
    tableIsEmpty (restoreFromBackup sGap bUsersTasks).2 TableName.receipts = true ∧
    restoreFromBackup sGap emptyBackup = (.ok (), emptyState) :=
  ⟨restore_clears_absent_collections.2 sGap bUsersTasks TableName.receipts (by decide),
   restore_clears_absent_collections.1 sGap⟩

/-! Claim C9: publishing appends; the public read serves the frozen latest. -/

/-- Claim C9: `createPublishedReport` only ever appends a new record (every
existing record survives unchanged and no other table moves);
`getLatestPublishedReport` returns a stored report with the maximum
`publishedAt` when one exists and `none` otherwise; and the public
`GET /api/reports/published` read depends only on the stored reports table,
returning the latest report's frozen `reportData` rather than recomputing
anything from live data. -/
theorem publishedReports_append_and_latest :
    (∀ (s : DatabaseState) (report : PublishedReport) (s2 : DatabaseState),
      createPublishedReport s report = .ok s2 →
      s2.publishedReports = s.publishedReports ++ [report] ∧
      s2.users = s.users ∧ s2.tasks = s.tasks ∧
      s2.receiptBooks = s.receiptBooks ∧ s2.receipts = s.receipts ∧
      s2.expenses = s.expenses ∧ s2.expenseTypes = s.expenseTypes) ∧
    (∀ s : DatabaseState, s.publishedReports = [] →
      getLatestPublishedReport s = none) ∧
    (∀ s : DatabaseState, s.publishedReports ≠ [] →
      ∃ rep, getLatestPublishedReport s = some rep ∧
        rep ∈ s.publishedReports ∧
        ∀ other ∈ s.publishedReports, other.publishedAt ≤ rep.publishedAt) ∧
    (∀ s s2 : DatabaseState, s.publishedReports = s2.publishedReports →
      getPublishedReportRoute s = getPublishedReportRoute s2) ∧
    (∀ (s : DatabaseState) (rep : PublishedReport),
      getLatestPublishedReport s = some rep →
      getPublishedReportRoute s = some (rep.reportData, rep.publishedAt)) := by
  refine ⟨?_, ?_, ?_, ?_, ?_⟩
  · intro s report s2 h
    rw [createPublishedReport] at h
    split at h
    · obtain rfl : { s with publishedReports := s.publishedReports ++ [report] } = s2 := by
        simpa using h
      exact ⟨rfl, rfl, rfl, rfl, rfl, rfl, rfl⟩
    · exact absurd h (by simp)
  · intro s h
    rw [getLatestPublishedReport, getPublishedReports, h]
    rfl
  · intro s hne
    haveI hTotal :
        IsTotal PublishedReport (fun x y => y.publishedAt ≤ x.publishedAt) :=
      ⟨fun x y => le_total y.publishedAt x.publishedAt⟩
    haveI hTrans :
        IsTrans PublishedReport (fun x y => y.publishedAt ≤ x.publishedAt) :=
      ⟨fun _ _ _ h1 h2 => le_trans h2 h1⟩
    have hp : (getPublishedReports s).Perm s.publishedReports :=
      List.perm_insertionSort _ _
    have hsorted :
        List.Sorted (fun x y : PublishedReport => y.publishedAt ≤ x.publishedAt)
          (getPublishedReports s) :=
      List.sorted_insertionSort _ _
    cases hl : getPublishedReports s with
    | nil =>
      exfalso
      have := hp.length_eq
      rw [hl] at this
      exact hne (List.eq_nil_of_length_eq_zero this.symm)
    | cons a as =>
      refine ⟨a, ?_, ?_, ?_⟩
      · rw [getLatestPublishedReport, hl]
        rfl
      · exact hp.mem_iff.mp (hl ▸ List.mem_cons_self a as)
      · intro other hother
        have hoth : other ∈ getPublishedReports s := hp.mem_iff.mpr hother
        rw [hl] at hoth
        rcases List.mem_cons.mp hoth with rfl | hmem
        · exact le_refl _
        · rw [hl] at hsorted
          exact List.rel_of_sorted_cons hsorted other hmem
  · intro s s2 h
    rw [getPublishedReportRoute, getPublishedReportRoute,
      getLatestPublishedReport, getLatestPublishedReport,
      getPublishedReports, getPublishedReports, h]
  · intro s rep h
    rw [getPublishedReportRoute, h]

/-- Witness for C9: publishing `report2` on top of `sRep1` appends it (giving
`sRep2`); on `sRep2` the latest report exists, is stored, and dominates every
stored `publishedAt`; and the public read returns `report2`'s frozen data. -/
theorem publishedReports_append_and_latest_witness :
    sRep2.publishedReports = sRep1.publishedReports ++ [report2] ∧
    (∃ rep, getLatestPublishedReport sRep2 = some rep ∧
      rep ∈ sRep2.publishedReports ∧
      ∀ other ∈ sRep2.publishedReports, other.publishedAt ≤ rep.publishedAt) ∧
    getPublishedReportRoute sRep2 = some (report2.reportData, report2.publishedAt) :=
  ⟨(publishedReports_append_and_latest.1 sRep1 report2 sRep2 (by decide)).1,
   publishedReports_append_and_latest.2.2.1 sRep2 (by decide),
   publishedReports_append_and_latest.2.2.2.2 sRep2 report2 (by decide)⟩

/-! Claim C7: restoring an export leaves the dataset observably identical. -/

theorem perm_any_eq {α : Type} {l1 l2 : List α} (h : l1.Perm l2) (p : α → Bool) :
    l1.any p = l2.any p := by
  cases ha : l2.any p with
  | true =>
    rw [List.any_eq_true] at ha ⊢
    obtain ⟨x, hx, hpx⟩ := ha
    exact ⟨x, h.mem_iff.mpr hx, hpx⟩
  | false =>
    rw [List.any_eq_false] at ha ⊢
    intro x hx
    exact ha x (h.mem_iff.mp hx)

theorem backupRows_empty_of_not_nonEmpty {b : BackupData} {t : TableName}
    (hget :
      (match t with
       | .users => (b.users.getD []).isEmpty
       | .tasks => (b.tasks.getD []).isEmpty
       | .expenseTypes => (b.expenseTypes.getD []).isEmpty
       | .receiptBooks => (b.receiptBooks.getD []).isEmpty
       | .receipts => (b.receipts.getD []).isEmpty
       | .expenses => (b.expenses.getD []).isEmpty
       | .publishedReports => (b.publishedReports.getD []).isEmpty) = false)
    (hne : ¬ backupRowsNonEmpty b t = true) : False := by
  cases t <;>
    (dsimp only at hget
     rw [backupRowsNonEmpty, hget] at hne
     exact hne rfl)

theorem run_cons_users (ts : List TableName) (s : DatabaseState) (b : BackupData) :
    runOutcome (runRestoreInserts (.users :: ts) s b) =
    runOutcome (runRestoreInserts ts
      { s with users := s.users ++ b.users.getD [] } b) := by
  rw [runRestoreInserts]
  by_cases hne : backupRowsNonEmpty b .users
  · rw [if_pos hne,
      show insertTableRows .users s b =
        some { s with users := s.users ++ b.users.getD [] } from rfl]
    rfl
  · rw [if_neg hne]
    cases hget : (b.users.getD []).isEmpty with
    | false => exact absurd (backupRows_empty_of_not_nonEmpty hget hne) not_false
    | true => rw [List.isEmpty_iff.mp hget, List.append_nil]

theorem run_cons_tasks (ts : List TableName) (s : DatabaseState) (b : BackupData)
    (hall : (b.tasks.getD []).all (taskRowOk s) = true) :
    runOutcome (runRestoreInserts (.tasks :: ts) s b) =
    runOutcome (runRestoreInserts ts
      { s with tasks := s.tasks ++ b.tasks.getD [] } b) := by
  rw [runRestoreInserts]
  by_cases hne : backupRowsNonEmpty b .tasks
  · rw [if_pos hne]
    have hins : insertTableRows .tasks s b =
        some { s with tasks := s.tasks ++ b.tasks.getD [] } := by
      rw [insertTableRows, if_pos hall]
    rw [hins]
    rfl
  · rw [if_neg hne]
    cases hget : (b.tasks.getD []).isEmpty with
    | false => exact absurd (backupRows_empty_of_not_nonEmpty hget hne) not_false
    | true => rw [List.isEmpty_iff.mp hget, List.append_nil]

theorem run_cons_expenseTypes (ts : List TableName) (s : DatabaseState)
    (b : BackupData)
    (hall : (b.expenseTypes.getD []).all (expenseTypeRowOk s) = true) :
    runOutcome (runRestoreInserts (.expenseTypes :: ts) s b) =
    runOutcome (runRestoreInserts ts
      { s with expenseTypes := s.expenseTypes ++ b.expenseTypes.getD [] } b) := by
  rw [runRestoreInserts]
  by_cases hne : backupRowsNonEmpty b .expenseTypes
  · rw [if_pos hne]
    have hins : insertTableRows .expenseTypes s b =
        some { s with expenseTypes := s.expenseTypes ++ b.expenseTypes.getD [] } := by
      rw [insertTableRows, if_pos hall]
    rw [hins]
    rfl
  · rw [if_neg hne]
    cases hget : (b.expenseTypes.getD []).isEmpty with
    | false => exact absurd (backupRows_empty_of_not_nonEmpty hget hne) not_false
    | true => rw [List.isEmpty_iff.mp hget, List.append_nil]

theorem run_cons_receiptBooks (ts : List TableName) (s : DatabaseState)
    (b : BackupData)
    (hall : (b.receiptBooks.getD []).all (receiptBookRowOk s) = true) :
    runOutcome (runRestoreInserts (.receiptBooks :: ts) s b) =
    runOutcome (runRestoreInserts ts
      { s with receiptBooks := s.receiptBooks ++ b.receiptBooks.getD [] } b) := by
  rw [runRestoreInserts]
  by_cases hne : backupRowsNonEmpty b .receiptBooks
  · rw [if_pos hne]
    have hins : insertTableRows .receiptBooks s b =
        some { s with receiptBooks := s.receiptBooks ++ b.receiptBooks.getD [] } := by
      rw [insertTableRows, if_pos hall]
    rw [hins]
    rfl
  · rw [if_neg hne]
    cases hget : (b.receiptBooks.getD []).isEmpty with
    | false => exact absurd (backupRows_empty_of_not_nonEmpty hget hne) not_false
    | true => rw [List.isEmpty_iff.mp hget, List.append_nil]

theorem run_cons_receipts (ts : List TableName) (s : DatabaseState)
    (b : BackupData)
    (hall : (b.receipts.getD []).all (receiptRowOk s) = true) :
    runOutcome (runRestoreInserts (.receipts :: ts) s b) =
    runOutcome (runRestoreInserts ts
      { s with receipts := s.receipts ++ b.receipts.getD [] } b) := by
  rw [runRestoreInserts]
  by_cases hne : backupRowsNonEmpty b .receipts
  · rw [if_pos hne]
    have hins : insertTableRows .receipts s b =
        some { s with receipts := s.receipts ++ b.receipts.getD [] } := by
      rw [insertTableRows, if_pos hall]
    rw [hins]
    rfl
  · rw [if_neg hne]
    cases hget : (b.receipts.getD []).isEmpty with
    | false => exact absurd (backupRows_empty_of_not_nonEmpty hget hne) not_false
    | true => rw [List.isEmpty_iff.mp hget, List.append_nil]

theorem run_cons_expenses (ts : List TableName) (s : DatabaseState)
    (b : BackupData)
    (hall : (b.expenses.getD []).all (expenseRowOk s) = true) :
    runOutcome (runRestoreInserts (.expenses :: ts) s b) =
    runOutcome (runRestoreInserts ts
      { s with expenses := s.expenses ++ b.expenses.getD [] } b) := by
  rw [runRestoreInserts]
  by_cases hne : backupRowsNonEmpty b .expenses
  · rw [if_pos hne]
    have hins : insertTableRows .expenses s b =
        some { s with expenses := s.expenses ++ b.expenses.getD [] } := by
      rw [insertTableRows, if_pos hall]
    rw [hins]
    rfl
  · rw [if_neg hne]
    cases hget : (b.expenses.getD []).isEmpty with
    | false => exact absurd (backupRows_empty_of_not_nonEmpty hget hne) not_false
    | true => rw [List.isEmpty_iff.mp hget, List.append_nil]

theorem run_cons_publishedReports (ts : List TableName) (s : DatabaseState)
    (b : BackupData)
    (hall : (b.publishedReports.getD []).all (publishedReportRowOk s) = true) :
    runOutcome (runRestoreInserts (.publishedReports :: ts) s b) =
    runOutcome (runRestoreInserts ts
      { s with publishedReports :=
          s.publishedReports ++ b.publishedReports.getD [] } b) := by
  rw [runRestoreInserts]
  by_cases hne : backupRowsNonEmpty b .publishedReports
  · rw [if_pos hne]
    have hins : insertTableRows .publishedReports s b =
        some { s with publishedReports :=
          s.publishedReports ++ b.publishedReports.getD [] } := by
      rw [insertTableRows, if_pos hall]
    rw [hins]
    rfl
  · rw [if_neg hne]
    cases hget : (b.publishedReports.getD []).isEmpty with
    | false => exact absurd (backupRows_empty_of_not_nonEmpty hget hne) not_false
    | true => rw [List.isEmpty_iff.mp hget, List.append_nil]

/-- Claim C7: for every referentially intact dataset, restoring its own
export succeeds and leaves every table holding exactly the same rows as
before (a permutation — the export orders each table by its `ORDER BY`
key, the observation of a table is its set of rows). -/
theorem restore_export_roundtrip (s : DatabaseState)
    (h : referentialIntegrity s = true) :
    (restoreFromBackup s (getAllDataForBackup s)).1 = .ok () ∧
    (restoreFromBackup s (getAllDataForBackup s)).2.users.Perm s.users ∧
    (restoreFromBackup s (getAllDataForBackup s)).2.tasks.Perm s.tasks ∧
    (restoreFromBackup s (getAllDataForBackup s)).2.receiptBooks.Perm s.receiptBooks ∧
    (restoreFromBackup s (getAllDataForBackup s)).2.receipts.Perm s.receipts ∧
    (restoreFromBackup s (getAllDataForBackup s)).2.expenses.Perm s.expenses ∧
    (restoreFromBackup s (getAllDataForBackup s)).2.expenseTypes.Perm s.expenseTypes ∧
    (restoreFromBackup s (getAllDataForBackup s)).2.publishedReports.Perm
      s.publishedReports := by
  rw [referentialIntegrity] at h
  simp only [Bool.and_eq_true] at h
  obtain ⟨⟨⟨⟨⟨hT, hRB⟩, hR⟩, hET⟩, hE⟩, hP⟩ := h
  have pU : (getAllUsers s).Perm s.users := List.perm_insertionSort _ _
  have pT : (getTasks s).Perm s.tasks := List.perm_insertionSort _ _
  have pRB : (getReceiptBooks s).Perm s.receiptBooks := List.perm_insertionSort _ _
  have pR : (getReceipts s).Perm s.receipts := List.perm_insertionSort _ _
  have pE : (getExpenses s).Perm s.expenses := List.perm_insertionSort _ _
  have pET : (getExpenseTypes s).Perm s.expenseTypes := List.perm_insertionSort _ _
  have pP : (getPublishedReports s).Perm s.publishedReports :=
    List.perm_insertionSort _ _
  have aT : (getTasks s).all
      (taskRowOk ⟨getAllUsers s, [], [], [], [], [], []⟩) = true := by
    rw [List.all_eq_true]
    intro t ht
    rw [taskRowOk]
    show (getAllUsers s).any _ = true
    rw [perm_any_eq pU]
    exact List.all_eq_true.mp hT t (pT.mem_iff.mp ht)
  have aET : (getExpenseTypes s).all
      (expenseTypeRowOk ⟨getAllUsers s, getTasks s, [], [], [], [], []⟩) = true := by
    rw [List.all_eq_true]
    intro e he
    rw [expenseTypeRowOk]
    show (getAllUsers s).any _ = true
    rw [perm_any_eq pU]
    exact List.all_eq_true.mp hET e (pET.mem_iff.mp he)
  have aRB : (getReceiptBooks s).all
      (receiptBookRowOk
        ⟨getAllUsers s, getTasks s, [], [], [], getExpenseTypes s, []⟩) = true := by
    rw [List.all_eq_true]
    intro bk hbk
    have hsrc : receiptBookRowOk s bk = true :=
      List.all_eq_true.mp hRB bk (pRB.mem_iff.mp hbk)
    rw [receiptBookRowOk] at hsrc ⊢
    show ((getTasks s).any _ && (getAllUsers s).any _ && _) = true
    rw [perm_any_eq pT, perm_any_eq pU]
    cases hass : bk.assignedTo with
    | none => rw [hass] at hsrc; exact hsrc
    | some uid =>
      rw [hass] at hsrc
      show (_ && _ && (getAllUsers s).any _) = true
      rw [perm_any_eq pU]
      exact hsrc
  have aR : (getReceipts s).all
      (receiptRowOk
        ⟨getAllUsers s, getTasks s, getReceiptBooks s, [], [],
         getExpenseTypes s, []⟩) = true := by
    rw [List.all_eq_true]
    intro r hr
    rw [receiptRowOk]
    show ((getReceiptBooks s).any _ && (getTasks s).any _ &&
      (getAllUsers s).any _) = true
    rw [perm_any_eq pRB, perm_any_eq pT, perm_any_eq pU]
    exact List.all_eq_true.mp hR r (pR.mem_iff.mp hr)
  have aE : (getExpenses s).all
      (expenseRowOk
        ⟨getAllUsers s, getTasks s, getReceiptBooks s, getReceipts s, [],
         getExpenseTypes s, []⟩) = true := by
    rw [List.all_eq_true]
    intro e he
    rw [expenseRowOk]
    show ((getExpenseTypes s).any _ && (getAllUsers s).any _) = true
    rw [perm_any_eq pET, perm_any_eq pU]
    exact List.all_eq_true.mp hE e (pE.mem_iff.mp he)
  have aP : (getPublishedReports s).all
      (publishedReportRowOk
        ⟨getAllUsers s, getTasks s, getReceiptBooks s, getReceipts s,
         getExpenses s, getExpenseTypes s, []⟩) = true := by
    rw [List.all_eq_true]
    intro p hp
    rw [publishedReportRowOk]
    show (getAllUsers s).any _ = true
    rw [perm_any_eq pU]
    exact List.all_eq_true.mp hP p (pP.mem_iff.mp hp)
  have key : runOutcome (runRestoreInserts restoreInsertOrder (clearAllTables s)
        (getAllDataForBackup s)) =
      (.ok (), ⟨getAllUsers s, getTasks s, getReceiptBooks s, getReceipts s,
        getExpenses s, getExpenseTypes s, getPublishedReports s⟩) := by
    refine (run_cons_users
      [.tasks, .expenseTypes, .receiptBooks, .receipts, .expenses, .publishedReports]
      (clearAllTables s) (getAllDataForBackup s)).trans ?_
    refine (run_cons_tasks
      [.expenseTypes, .receiptBooks, .receipts, .expenses, .publishedReports]
      ⟨getAllUsers s, [], [], [], [], [], []⟩ (getAllDataForBackup s) aT).trans ?_
    refine (run_cons_expenseTypes
      [.receiptBooks, .receipts, .expenses, .publishedReports]
      ⟨getAllUsers s, getTasks s, [], [], [], [], []⟩
      (getAllDataForBackup s) aET).trans ?_
    refine (run_cons_receiptBooks [.receipts, .expenses, .publishedReports]
      ⟨getAllUsers s, getTasks s, [], [], [], getExpenseTypes s, []⟩
      (getAllDataForBackup s) aRB).trans ?_
    refine (run_cons_receipts [.expenses, .publishedReports]
      ⟨getAllUsers s, getTasks s, getReceiptBooks s, [], [], getExpenseTypes s, []⟩
      (getAllDataForBackup s) aR).trans ?_
    refine (run_cons_expenses [.publishedReports]
      ⟨getAllUsers s, getTasks s, getReceiptBooks s, getReceipts s, [],
       getExpenseTypes s, []⟩ (getAllDataForBackup s) aE).trans ?_
    refine (run_cons_publishedReports []
      ⟨getAllUsers s, getTasks s, getReceiptBooks s, getReceipts s,
       getExpenses s, getExpenseTypes s, []⟩ (getAllDataForBackup s) aP).trans ?_
    rfl
  have hState : (restoreFromBackup s (getAllDataForBackup s)).2 =
      ⟨getAllUsers s, getTasks s, getReceiptBooks s, getReceipts s,
        getExpenses s, getExpenseTypes s, getPublishedReports s⟩ :=
    congrArg Prod.snd key
  refine ⟨congrArg Prod.fst key, ?_, ?_, ?_, ?_, ?_, ?_, ?_⟩
  · rw [hState]; exact pU
  · rw [hState]; exact pT
  · rw [hState]; exact pRB
  · rw [hState]; exact pR
  · rw [hState]; exact pE
  · rw [hState]; exact pET
  · rw [hState]; exact pP

/-- Witness for C7: on the concrete populated state `sRt`, restoring its own
export succeeds and every table still holds the same rows. -/
theorem restore_export_roundtrip_witness :
    (restoreFromBackup sRt (getAllDataForBackup sRt)).1 = .ok () ∧
    (restoreFromBackup sRt (getAllDataForBackup sRt)).2.receipts.Perm
      sRt.receipts ∧
    (restoreFromBackup sRt (getAllDataForBackup sRt)).2.users.Perm sRt.users :=
  ⟨(restore_export_roundtrip sRt (by decide)).1,
   (restore_export_roundtrip sRt (by decide)).2.2.2.2.1,
   (restore_export_roundtrip sRt (by decide)).2.1⟩

end ProfitFlow
